import Mathlib

/-!
Verification of the gh-space-shooter core (simulation state, renderer,
sequencer, strategy selection) against its specification.

The Python sources embedded here:
  - `src/gh_space_shooter/game/game_state.py` (Enemy, Bullet, Ship, GameState)
  - `src/gh_space_shooter/game/renderer.py` (Renderer)
  - `src/gh_space_shooter/game/animator.py` (Animator._generate_frames)
  - `app/src/main.py` (strategy selection and the HTTP endpoint)

Machine integers of the source are modelled as `Int`/`Nat`; the bullet's
floating-point `progress` is modelled as `Rat` (its values are exact
multiples of `1/5` in the program). Mutation is modelled by explicit state
passing. Drawing calls are modelled as an ordered list of draw operations.
-/

set_option autoImplicit false
set_option maxRecDepth 8192

namespace SpaceShooter

/-- Color as an RGB triple, mirroring the Python `(r, g, b)` tuples. -/
abbrev Color := Nat × Nat × Nat

/-! ### Constants

`constants.py` is not part of the analysed sources (only imported by them);
`NUM_WEEKS`/`NUM_DAYS` are the standard GitHub contribution-calendar shape.
Modelled from the spec: a fixed number of weeks W and days D ("fixed
week/day counts"); none of the verified properties depends on the exact
values. -/

def NUM_WEEKS : Nat := 52

/-- Number of day rows of the grid (see `NUM_WEEKS` above). -/
def NUM_DAYS : Nat := 7

/-! ### Enemy (`game_state.py`, class `Enemy`) -/

/-- An enemy at a grid position, from `Enemy.__init__`: `max_health` is set
to the initial `health`. `health` is an `Int` because `take_damage`
decrements without a lower clamp. -/
structure Enemy where
  week : Nat
  day : Nat
  health : Int
  max_health : Int
  deriving DecidableEq

/-- `Enemy.take_damage`: decrement health by 1, return whether the enemy is
destroyed (`health <= 0`) together with the updated enemy. -/
def Enemy.take_damage (e : Enemy) : Bool × Enemy :=
  let e2 : Enemy := { e with health := e.health - 1 }
  (decide (e2.health ≤ 0), e2)

/-- `Enemy.is_alive`: `health > 0`. -/
def Enemy.is_alive (e : Enemy) : Bool :=
  decide (0 < e.health)

/-! ### Bullet and Ship (`game_state.py`) -/

/-- A bullet; `progress` runs from `0` (at the ship) to `1` (at the target). -/
structure Bullet where
  week : Nat
  target_day : Nat
  progress : Rat
  deriving DecidableEq

/-- The ship; `Ship.__init__` starts it at `week = -1`, off-screen to the
left, hence an `Int` column. -/
structure Ship where
  week : Int
  deriving DecidableEq

/-- `Ship.__init__`. -/
def Ship.start : Ship := { week := -1 }

/-- `Ship.move_to`. -/
def Ship.move_to (_s : Ship) (week : Int) : Ship := { week := week }

/-! ### GameState (`game_state.py`, class `GameState`) -/

/-- The mutable game state: enemies, bullets and the ship. The read-only
`contribution_data` field is not carried along; it is only consumed by
enemy initialization. -/
structure GameState where
  enemies : List Enemy
  bullets : List Bullet
  ship : Ship
  deriving DecidableEq

/-- One week of the contribution grid is its list of day levels; the grid is
the list of weeks (`contribution_data["weeks"][i]["days"][j]["level"]`). -/
abbrev Grid := List (List Nat)

/-- Inner loop of `GameState._initialize_enemies`: walk the day levels of
week `wi` starting at day index `di`, spawning an enemy for each positive
level with `health = level`. -/
def initWeekEnemies (wi : Nat) : Nat → List Nat → List Enemy
  | _, [] => []
  | di, level :: rest =>
    (if 0 < level then [⟨wi, di, (level : Int), (level : Int)⟩] else [])
      ++ initWeekEnemies wi (di + 1) rest

/-- `GameState._initialize_enemies`: enumerate weeks from index `wi`. -/
def initEnemies : Nat → Grid → List Enemy
  | _, [] => []
  | wi, days :: rest => initWeekEnemies wi 0 days ++ initEnemies (wi + 1) rest

/-- `GameState.__init__`: fresh ship, enemies spawned from the grid, no
bullets. -/
def GameState.make (g : Grid) : GameState :=
  { enemies := initEnemies 0 g, bullets := [], ship := Ship.start }

/-- The scan predicate of `GameState.get_enemy_at`:
`enemy.week == week and enemy.day == day and enemy.is_alive()`. -/
def enemyAtPred (w d : Nat) (e : Enemy) : Bool :=
  e.week == w && e.day == d && e.is_alive

/-- `GameState.get_enemy_at`: first live enemy at `(week, day)`, else
`none`. -/
def GameState.get_enemy_at (gs : GameState) (w d : Nat) : Option Enemy :=
  gs.enemies.find? (enemyAtPred w d)

/-- `GameState.shoot`: create a bullet with `progress = 0.0` at the target,
append it to the bullet collection and return it (no damage applied). -/
def GameState.shoot (gs : GameState) (w d : Nat) : Bullet × GameState :=
  let bullet : Bullet := { week := w, target_day := d, progress := 0 }
  (bullet, { gs with bullets := gs.bullets ++ [bullet] })

/-- The list effect of `GameState.hit_target`: Python looks up the first
live enemy at `(w, d)` via `get_enemy_at` and mutates it in place with
`take_damage`; on the list this damages the first match and keeps the rest. -/
def damageFirstAt (w d : Nat) : List Enemy → List Enemy
  | [] => []
  | e :: rest =>
    if enemyAtPred w d e then (e.take_damage).2 :: rest
    else e :: damageFirstAt w d rest

/-- `GameState.hit_target`: damage the live enemy at the target position if
there is one, otherwise do nothing. -/
def GameState.hit_target (gs : GameState) (w d : Nat) : GameState :=
  { gs with enemies := damageFirstAt w d gs.enemies }

/-- `GameState.clear_bullets`. -/
def GameState.clear_bullets (gs : GameState) : GameState :=
  { gs with bullets := [] }

/-- `GameState.get_alive_enemies`. -/
def GameState.get_alive_enemies (gs : GameState) : List Enemy :=
  gs.enemies.filter Enemy.is_alive

/-- `GameState.is_complete`. -/
def GameState.is_complete (gs : GameState) : Bool :=
  gs.get_alive_enemies.length == 0

/-! ### Sequences of state operations

The mutating `GameState` interface used by the animator, reified so that
invariants can be stated over every reachable state. -/

/-- One call into the mutating `GameState` interface. -/
inductive GOp where
  | shoot (w d : Nat)
  | hit (w d : Nat)
  | clearBullets
  | moveShip (w : Int)
  deriving DecidableEq

/-- Apply one interface call. -/
def GameState.applyOp (gs : GameState) : GOp → GameState
  | .shoot w d => (gs.shoot w d).2
  | .hit w d => gs.hit_target w d
  | .clearBullets => gs.clear_bullets
  | .moveShip w => { gs with ship := gs.ship.move_to w }

/-- Apply a sequence of interface calls in order. -/
def GameState.runOps (gs : GameState) (ops : List GOp) : GameState :=
  ops.foldl GameState.applyOp gs

/-! ### Renderer (`renderer.py`)

A rendered frame is the canvas dimensions plus the ordered list of draw
calls issued on it (later operations overlay earlier ones). The initial
full-canvas background fill of `Image.new(..., COLOR_BACKGROUND)` is the
first operation. Rectangle/polygon pixel coordinates are integers; the
bullet's vertical coordinate is fractional (`Rat`). -/

/-- One Pillow draw call, in issue order. -/
inductive DrawOp where
  | fill (color : Color)
  | rect (x1 y1 x2 y2 : Int) (color : Color)
  | ellipse (x1 x2 : Int) (y1 y2 : Rat) (color : Color)
  | polygon (pts : List (Int × Int)) (color : Color)
  deriving DecidableEq

/-- The color argument of a draw call. -/
def DrawOp.color : DrawOp → Color
  | .fill c => c
  | .rect _ _ _ _ c => c
  | .ellipse _ _ _ _ c => c
  | .polygon _ c => c

/-- `Renderer.CELL_SIZE`. -/
def CELL_SIZE : Int := 12

/-- `Renderer.CELL_SPACING`. -/
def CELL_SPACING : Int := 2

/-- `Renderer.COLOR_BACKGROUND`. -/
def COLOR_BACKGROUND : Color := (13, 17, 23)

/-- `Renderer.COLOR_EMPTY`. -/
def COLOR_EMPTY : Color := (22, 27, 34)

/-- `Renderer.COLOR_SHIP`. -/
def COLOR_SHIP : Color := (88, 166, 255)

/-- `Renderer.COLOR_BULLET`. -/
def COLOR_BULLET : Color := (255, 223, 0)

/-- The lookup side of the `Renderer.COLOR_ENEMY` dict: `some` exactly on
the defined keys 1..4. -/
def COLOR_ENEMY_lookup (h : Int) : Option Color :=
  if h = 1 then some (0, 109, 50)
  else if h = 2 then some (38, 166, 65)
  else if h = 3 then some (57, 211, 83)
  else if h = 4 then some (87, 242, 135)
  else none

/-- `color_map.get(self.health, color_map[1])` from `Enemy.draw`: lookup by
current health with the level-1 color as default. -/
def enemyColor (h : Int) : Color :=
  (COLOR_ENEMY_lookup h).getD ((0 : Nat), (109 : Nat), (50 : Nat))

/-- `Renderer` field `padding`. -/
def padding : Int := 40

/-- `Renderer` field `grid_width`. -/
def grid_width : Int := (NUM_WEEKS : Int) * (CELL_SIZE + CELL_SPACING)

/-- `Renderer` field `grid_height`. -/
def grid_height : Int := (NUM_DAYS : Int) * (CELL_SIZE + CELL_SPACING)

/-- `Renderer` field `width`. -/
def canvas_width : Int := grid_width + 2 * padding

/-- `Renderer` field `height`. -/
def canvas_height : Int := grid_height + 2 * padding

/-- `Renderer._get_cell_position`. -/
def get_cell_position (week day : Int) : Int × Int :=
  (padding + week * (CELL_SIZE + CELL_SPACING),
   padding + day * (CELL_SIZE + CELL_SPACING))

/-- The fixed ship row below the grid, as computed identically in
`Bullet.draw` and `Ship.draw`:
`padding + NUM_DAYS * (cell_size + cell_spacing) + 10`. -/
def SHIP_Y : Int := padding + (NUM_DAYS : Int) * (CELL_SIZE + CELL_SPACING) + 10

/-- `Enemy.draw`: nothing if not alive, else one filled square at the cell
position, colored by current health. -/
def Enemy.drawOps (e : Enemy) : List DrawOp :=
  if e.is_alive then
    let p := get_cell_position e.week e.day
    [DrawOp.rect p.1 p.2 (p.1 + CELL_SIZE) (p.2 + CELL_SIZE) (enemyColor e.health)]
  else []

/-- `Bullet.draw`: a filled circle of radius 3, horizontally at the target
week's column center, vertically interpolated between the ship row and the
target cell's row center by `progress`. -/
def Bullet.drawOps (b : Bullet) : List DrawOp :=
  let x := (get_cell_position b.week 0).1 + CELL_SIZE / 2
  let ship_y : Rat := (SHIP_Y : Rat)
  let target_y : Rat := (((get_cell_position b.week b.target_day).2 + CELL_SIZE / 2 : Int) : Rat)
  let y := ship_y + (target_y - ship_y) * b.progress
  [DrawOp.ellipse (x - 3) (x + 3) (y - 3) (y + 3) COLOR_BULLET]

/-- The horizontal position chosen by `Ship.draw`: the cell position of its
column when `week >= 0`, else fixed at `padding - 20`, off the field to the
left. -/
def shipX (s : Ship) : Int :=
  if 0 ≤ s.week then (get_cell_position s.week 0).1 else padding - 20

/-- `Ship.draw`: an upward-pointing triangle at `shipX`, on the ship row. -/
def Ship.drawOps (s : Ship) : List DrawOp :=
  let x := shipX s
  [DrawOp.polygon
    [(x + CELL_SIZE / 2, SHIP_Y), (x, SHIP_Y + CELL_SIZE), (x + CELL_SIZE, SHIP_Y + CELL_SIZE)]
    COLOR_SHIP]

/-- `GameState._draw_grid`: every one of the `NUM_WEEKS * NUM_DAYS` cells
painted with the empty-cell color, weeks outer, days inner. -/
def gridOps : List DrawOp :=
  (List.range NUM_WEEKS).flatMap fun w =>
    (List.range NUM_DAYS).map fun d =>
      let p := get_cell_position w d
      DrawOp.rect p.1 p.2 (p.1 + CELL_SIZE) (p.2 + CELL_SIZE) COLOR_EMPTY

/-- `GameState.draw`: grid background, then the alive enemies, then the
bullets, then the ship on top. -/
def GameState.drawOps (gs : GameState) : List DrawOp :=
  gridOps
    ++ gs.get_alive_enemies.flatMap Enemy.drawOps
    ++ gs.bullets.flatMap Bullet.drawOps
    ++ gs.ship.drawOps

/-- A rendered frame: canvas size plus the ordered draw calls. -/
structure Raster where
  width : Int
  height : Int
  ops : List DrawOp
  deriving DecidableEq

/-- `Renderer.render_frame`: new background-filled canvas, then
`game_state.draw` on it. -/
def render_frame (gs : GameState) : Raster :=
  { width := canvas_width, height := canvas_height,
    ops := DrawOp.fill COLOR_BACKGROUND :: gs.drawOps }

/-! ### State-threaded rendering

`render_frame` is translated above as a pure function because no draw
method of `game_state.py` assigns to any object attribute. To make that
reading checkable, the threaded versions below return, next to the draw
calls, the object as it stands after the method body; `renderFrameS`
rebuilds the whole game state from them. Iterating `get_alive_enemies()`
touches aliases of objects held in `enemies`, and `Enemy.draw` leaves its
receiver unchanged, so the `enemies` field is carried over as-is. -/

/-- `Enemy.draw`, with the receiver as it is after the call. -/
def Enemy.drawS (e : Enemy) : List DrawOp × Enemy := (e.drawOps, e)

/-- `Bullet.draw`, with the receiver as it is after the call. -/
def Bullet.drawS (b : Bullet) : List DrawOp × Bullet := (b.drawOps, b)

/-- `Ship.draw`, with the receiver as it is after the call. -/
def Ship.drawS (s : Ship) : List DrawOp × Ship := (s.drawOps, s)

/-- Thread a draw method through a list of objects, collecting the draw
calls in order. -/
def drawListS {α : Type} (f : α → List DrawOp × α) : List α → List DrawOp × List α
  | [] => ([], [])
  | x :: xs =>
    let r := f x
    let rest := drawListS f xs
    (r.1 ++ rest.1, r.2 :: rest.2)

/-- `GameState.draw` with explicit state threading. -/
def GameState.drawS (gs : GameState) : List DrawOp × GameState :=
  let re := drawListS Enemy.drawS gs.get_alive_enemies
  let rb := drawListS Bullet.drawS gs.bullets
  let rs := Ship.drawS gs.ship
  (gridOps ++ re.1 ++ rb.1 ++ rs.1,
   { enemies := gs.enemies, bullets := rb.2, ship := rs.2 })

/-- `Renderer.render_frame` with explicit state threading. -/
def renderFrameS (gs : GameState) : Raster × GameState :=
  let r := gs.drawS
  ({ width := canvas_width, height := canvas_height,
     ops := DrawOp.fill COLOR_BACKGROUND :: r.1 }, r.2)

/-! ### Sequencer (`animator.py`, `Animator._generate_frames`) -/

/-- One strategy action: `{week, day, shoot}`. -/
structure Action where
  week : Nat
  day : Nat
  shoot : Bool
  deriving DecidableEq

/-- `bullet_flight_steps` from `Animator._generate_frames`. -/
def bullet_flight_steps : Nat := 5

/-- `bullet.progress = (step + 1) / bullet_flight_steps`: the mutation of
the flying bullet, applied to the bullet appended last by `shoot` (the one
the loop holds a reference to). -/
def setLastProgress (p : Rat) : List Bullet → List Bullet
  | [] => []
  | [b] => [{ b with progress := p }]
  | b :: rest => b :: setLastProgress p rest

/-- The game state rendered at flight step `step` (0-based): the in-flight
bullet's progress set to `(step + 1) / bullet_flight_steps`. -/
def flightState (gs : GameState) (step : Nat) : GameState :=
  { gs with bullets :=
      setLastProgress (((step : Rat) + 1) / (bullet_flight_steps : Rat)) gs.bullets }

/-- The body of the `for step in range(bullet_flight_steps)` loop: set the
bullet's progress, render and append one frame per step. -/
def flightFrames (gs : GameState) : List Nat → GameState × List Raster
  | [] => (gs, [])
  | step :: rest =>
    let gs2 := flightState gs step
    let r := flightFrames gs2 rest
    (r.1, render_frame gs2 :: r.2)

/-- The body of the `for action in ...` loop of `_generate_frames`: move
the ship, then either run a full shot episode (fire, five flight frames,
hit resolution, bullet clearing) or render the move frame. Returns the
state after the action together with the frames it appended. -/
def processAction (gs : GameState) (a : Action) : GameState × List Raster :=
  let gs1 : GameState := { gs with ship := gs.ship.move_to a.week }
  if a.shoot then
    let gs2 := (gs1.shoot a.week a.day).2
    let r := flightFrames gs2 (List.range bullet_flight_steps)
    let gs3 := r.1.hit_target a.week a.day
    (gs3.clear_bullets, r.2)
  else
    (gs1, [render_frame gs1])

/-- Run the action loop, concatenating the appended frames. -/
def runActions : GameState → List Action → GameState × List Raster
  | gs, [] => (gs, [])
  | gs, a :: rest =>
    let r := processAction gs a
    let r2 := runActions r.1 rest
    (r2.1, r.2 ++ r2.2)

/-- `Animator._generate_frames`: one initial frame, the frames of each
action in order, then two completion frames of the end state. -/
def generate_frames (gs : GameState) (actions : List Action) : List Raster :=
  let r := runActions gs actions
  render_frame gs :: r.2 ++ [render_frame r.1, render_frame r.1]

/-- Modelled from the spec: the deployed animator used by `app/src/main.py`
(which constructs `Animator(..., fps=25, watermark=True)` and calls
`generate_gif(maxFrame=250)`) enforces a hard ceiling `maxFrame` on the
total frame count; that version of `animator.py` is not among the analysed
sources. Per the spec, once the cap is reached the sequencer stops
emitting further per-step frames and proceeds directly to the two
completion frames; the simulation itself still runs to completion, so the
rest of the pipeline is unaffected. With the initial frame counted against
the cap, at most `maxFrame - 1` per-step frames are kept. -/
def capped_generate_frames (maxFrame : Nat) (gs : GameState) (actions : List Action) :
    List Raster :=
  let r := runActions gs actions
  render_frame gs :: r.2.take (maxFrame - 1) ++ [render_frame r.1, render_frame r.1]

/-! ### Strategy selection (`app/src/main.py`) -/

/-- The three strategy classes importable from `gh_space_shooter.game`. -/
inductive StrategyKind where
  | column
  | row
  | random
  deriving DecidableEq

/-- The lookup side of the `STRATEGY_MAP` dict: `some` exactly on the keys
`"column"`, `"row"`, `"random"`. -/
def STRATEGY_MAP_lookup : String → Option StrategyKind
  | "column" => some .column
  | "row" => some .row
  | "random" => some .random
  | _ => none

/-- `STRATEGY_MAP.get(strategy, RandomStrategy)` from `generate_gif`:
unknown selector strings fall back to the random strategy. -/
def generate_gif_strategy (strategy : String) : StrategyKind :=
  (STRATEGY_MAP_lookup strategy).getD .random

/-- The selector handling of the `/api/generate` endpoint (`generate` in
`app/src/main.py`): `if strategy not in STRATEGY_MAP: raise
HTTPException(status_code=400, ...)`, else `generate_gif` runs with the
selected strategy. The surrounding token check and exception translation
do not involve the selector and are omitted. -/
def generate_endpoint_strategy (strategy : String) : Except Nat StrategyKind :=
  if (STRATEGY_MAP_lookup strategy).isSome then
    Except.ok (generate_gif_strategy strategy)
  else
    Except.error 400

/-! ### Derived state definitions used by the statements -/

/-- The state right after a shoot action's `move_to` and `shoot` calls,
before the flight loop runs. -/
def shotState (gs : GameState) (w d : Nat) : GameState :=
  (({ gs with ship := gs.ship.move_to (w : Int) }).shoot w d).2

/-- A reachable game state: the constructed state after any sequence of
interface calls. -/
def reached (g : Grid) (ops : List GOp) : GameState :=
  (GameState.make g).runOps ops

/-- The grid position of an enemy. -/
def enemyPos (e : Enemy) : Nat × Nat := (e.week, e.day)

/-- The state invariant maintained by every `GameState` operation: enemy
positions are pairwise distinct and no enemy's health is negative. -/
def EnemyInv (gs : GameState) : Prop :=
  (gs.enemies.map enemyPos).Nodup ∧ ∀ e ∈ gs.enemies, 0 ≤ e.health

/-! ### Helper lemmas -/

theorem enemyAtPred_iff {w d : Nat} {e : Enemy} :
    enemyAtPred w d e = true ↔ e.week = w ∧ e.day = d ∧ 0 < e.health := by
  simp [enemyAtPred, Enemy.is_alive, and_assoc]

theorem damageFirstAt_of_no_match {w d : Nat} :
    ∀ {l : List Enemy}, (∀ e ∈ l, ¬ enemyAtPred w d e = true) → damageFirstAt w d l = l
  | [], _ => rfl
  | e :: rest, h => by
    have he : enemyAtPred w d e = false := by
      have := h e (List.mem_cons_self e rest)
      simpa using this
    simp only [damageFirstAt, he, if_neg Bool.false_ne_true]
    exact congrArg (e :: ·) (damageFirstAt_of_no_match fun x hx => h x (List.mem_cons_of_mem e hx))

theorem hit_target_of_get_none (gs : GameState) (w d : Nat)
    (h : gs.get_enemy_at w d = none) : gs.hit_target w d = gs := by
  obtain ⟨enemies, bullets, ship⟩ := gs
  simp only [GameState.hit_target, GameState.mk.injEq, and_true, true_and]
  exact damageFirstAt_of_no_match (List.find?_eq_none.mp h)

theorem map_pos_damageFirstAt (w d : Nat) :
    ∀ l : List Enemy, (damageFirstAt w d l).map enemyPos = l.map enemyPos
  | [] => rfl
  | a :: rest => by
    by_cases hpa : enemyAtPred w d a = true
    · rw [damageFirstAt, if_pos hpa]
      simp [enemyPos, Enemy.take_damage]
    · rw [damageFirstAt, if_neg hpa, List.map_cons, List.map_cons,
        map_pos_damageFirstAt w d rest]

theorem health_damageFirstAt (w d : Nat) :
    ∀ l : List Enemy, (∀ e ∈ l, 0 ≤ e.health) → ∀ e ∈ damageFirstAt w d l, 0 ≤ e.health
  | [], _, e, he => absurd he (List.not_mem_nil e)
  | a :: rest, h, e, he => by
    by_cases hpa : enemyAtPred w d a = true
    · rw [damageFirstAt, if_pos hpa] at he
      rcases List.mem_cons.mp he with h1 | h2
      · have hah := (enemyAtPred_iff.mp hpa).2.2
        rw [h1]
        show (0 : Int) ≤ a.health - 1
        omega
      · exact h e (List.mem_cons_of_mem a h2)
    · rw [damageFirstAt, if_neg hpa] at he
      rcases List.mem_cons.mp he with h1 | h2
      · rw [h1]; exact h a (List.mem_cons_self a rest)
      · exact health_damageFirstAt w d rest (fun x hx => h x (List.mem_cons_of_mem a hx)) e h2

theorem find?_damageFirstAt {w d : Nat} :
    ∀ {l : List Enemy} {e : Enemy}, (l.map enemyPos).Nodup →
      l.find? (enemyAtPred w d) = some e →
      (damageFirstAt w d l).find? (enemyAtPred w d) =
        (if 0 < e.health - 1 then some { e with health := e.health - 1 } else none)
  | [], e, _, h => by simp at h
  | a :: rest, e, hnd, h => by
    rw [List.map_cons, List.nodup_cons] at hnd
    by_cases hpa : enemyAtPred w d a = true
    · rw [List.find?_cons_of_pos _ hpa, Option.some.injEq] at h
      subst h
      obtain ⟨haw, had, hah⟩ := enemyAtPred_iff.mp hpa
      rw [damageFirstAt, if_pos hpa]
      by_cases h2 : 0 < a.health - 1
      · have hpa2 : enemyAtPred w d (a.take_damage).2 = true :=
          enemyAtPred_iff.mpr ⟨haw, had, h2⟩
        rw [List.find?_cons_of_pos _ hpa2, if_pos h2]
        rfl
      · have hpa2 : ¬ enemyAtPred w d (a.take_damage).2 = true := fun hc =>
          h2 (enemyAtPred_iff.mp hc).2.2
        rw [List.find?_cons_of_neg _ hpa2, if_neg h2, List.find?_eq_none]
        intro x hx hcx
        obtain ⟨hxw, hxd, _⟩ := enemyAtPred_iff.mp hcx
        exact hnd.1 (by
          have hpos : enemyPos a = enemyPos x := by
            simp [enemyPos, hxw, hxd, haw, had]
          exact hpos ▸ List.mem_map_of_mem enemyPos hx)
    · rw [List.find?_cons_of_neg _ hpa] at h
      rw [damageFirstAt, if_neg hpa, List.find?_cons_of_neg _ hpa]
      exact find?_damageFirstAt hnd.2 h

theorem mem_initWeekEnemies : ∀ (days : List Nat) (wi di : Nat) (e : Enemy),
    e ∈ initWeekEnemies wi di days → e.week = wi ∧ di ≤ e.day ∧ 0 < e.health
  | [], _, _, e, he => absurd he (List.not_mem_nil e)
  | level :: rest, wi, di, e, he => by
    rw [initWeekEnemies] at he
    rcases List.mem_append.mp he with h1 | h2
    · by_cases hl : 0 < level
      · rw [if_pos hl, List.mem_singleton] at h1
        subst h1
        refine ⟨rfl, le_refl _, ?_⟩
        show (0 : Int) < (level : Int)
        exact_mod_cast hl
      · rw [if_neg hl] at h1
        exact absurd h1 (List.not_mem_nil e)
    · obtain ⟨hw, hd, hh⟩ := mem_initWeekEnemies rest wi (di + 1) e h2
      exact ⟨hw, by omega, hh⟩

theorem nodup_pos_initWeekEnemies : ∀ (days : List Nat) (wi di : Nat),
    ((initWeekEnemies wi di days).map enemyPos).Nodup
  | [], _, _ => List.nodup_nil
  | level :: rest, wi, di => by
    rw [initWeekEnemies]
    by_cases hl : 0 < level
    · rw [if_pos hl, List.singleton_append, List.map_cons, List.nodup_cons]
      refine ⟨?_, nodup_pos_initWeekEnemies rest wi (di + 1)⟩
      intro hmem
      rcases List.mem_map.mp hmem with ⟨x, hx, hpx⟩
      have hday := (mem_initWeekEnemies rest wi (di + 1) x hx).2.1
      have : x.day = di := congrArg Prod.snd hpx
      omega
    · rw [if_neg hl, List.nil_append]
      exact nodup_pos_initWeekEnemies rest wi (di + 1)

theorem mem_initEnemies : ∀ (g : Grid) (wi : Nat) (e : Enemy),
    e ∈ initEnemies wi g → wi ≤ e.week ∧ 0 < e.health
  | [], _, e, he => absurd he (List.not_mem_nil e)
  | days :: rest, wi, e, he => by
    rw [initEnemies] at he
    rcases List.mem_append.mp he with h1 | h2
    · obtain ⟨hw, _, hh⟩ := mem_initWeekEnemies days wi 0 e h1
      exact ⟨le_of_eq hw.symm, hh⟩
    · obtain ⟨hw, hh⟩ := mem_initEnemies rest (wi + 1) e h2
      exact ⟨by omega, hh⟩

theorem nodup_pos_initEnemies : ∀ (g : Grid) (wi : Nat),
    ((initEnemies wi g).map enemyPos).Nodup
  | [], _ => List.nodup_nil
  | days :: rest, wi => by
    rw [initEnemies, List.map_append, List.nodup_append]
    refine ⟨nodup_pos_initWeekEnemies days wi 0, nodup_pos_initEnemies rest (wi + 1), ?_⟩
    intro p hp1 hp2
    rcases List.mem_map.mp hp1 with ⟨x, hx, hpx⟩
    rcases List.mem_map.mp hp2 with ⟨y, hy, hpy⟩
    have hxw : x.week = wi := (mem_initWeekEnemies days wi 0 x hx).1
    have hyw : wi + 1 ≤ y.week := (mem_initEnemies rest (wi + 1) y hy).1
    have hsame : y.week = x.week := congrArg Prod.fst (hpy.trans hpx.symm)
    omega

theorem inv_make (g : Grid) : EnemyInv (GameState.make g) :=
  ⟨nodup_pos_initEnemies g 0, fun e he => le_of_lt (mem_initEnemies g 0 e he).2⟩

theorem inv_applyOp (gs : GameState) (op : GOp) (h : EnemyInv gs) :
    EnemyInv (gs.applyOp op) := by
  cases op with
  | shoot w d => exact h
  | clearBullets => exact h
  | moveShip w => exact h
  | hit w d =>
    refine ⟨?_, health_damageFirstAt w d gs.enemies h.2⟩
    rw [show (gs.applyOp (.hit w d)).enemies = damageFirstAt w d gs.enemies from rfl,
      map_pos_damageFirstAt]
    exact h.1

theorem inv_runOps (gs : GameState) (ops : List GOp) (h : EnemyInv gs) :
    EnemyInv (gs.runOps ops) := by
  induction ops generalizing gs with
  | nil => exact h
  | cons op rest ih => exact ih (gs.applyOp op) (inv_applyOp gs op h)

theorem flightFrames_length : ∀ (l : List Nat) (gs : GameState),
    ((flightFrames gs l).2).length = l.length
  | [], _ => rfl
  | _ :: rest, gs => by
    simp only [flightFrames, List.length_cons]
    rw [flightFrames_length rest]

theorem runActions_frames_length : ∀ (actions : List Action) (gs : GameState),
    ((runActions gs actions).2).length =
      (actions.filter fun a => !a.shoot).length
        + bullet_flight_steps * (actions.filter fun a => a.shoot).length
  | [], _ => rfl
  | a :: rest, gs => by
    cases ha : a.shoot with
    | true =>
      simp [runActions, processAction, ha, flightFrames_length, List.filter_cons,
        runActions_frames_length rest, bullet_flight_steps]
      omega
    | false =>
      simp [runActions, processAction, ha, List.filter_cons,
        runActions_frames_length rest]
      omega

/-! ### Claim theorems -/

/-- Claim C1: `_generate_frames` emits exactly one initial frame, one frame
per move action, five flight frames per shoot action and two completion
frames, so for `m` move actions and `k` shoot actions the total is
`1 + m + 5 * k + 2`; in particular an empty action sequence yields exactly
3 frames. -/
theorem frame_count_law :
    (∀ (gs : GameState) (actions : List Action),
      (generate_frames gs actions).length =
        1 + (actions.filter fun a => !a.shoot).length
          + 5 * (actions.filter fun a => a.shoot).length + 2)
    ∧ (∀ gs : GameState, (generate_frames gs []).length = 3) := by
  constructor
  · intro gs actions
    simp [generate_frames, runActions_frames_length, bullet_flight_steps]
    omega
  · intro gs
    rfl

/-- Claim C2: the deployed animator's frame cap (spec-modelled, see
`capped_generate_frames`): for a positive cap, the total frame count is
bounded by the cap plus the two completion frames, for every game state
and every action sequence. -/
theorem capped_frame_bound (maxFrame : Nat) (gs : GameState) (actions : List Action)
    (h : 0 < maxFrame) :
    (capped_generate_frames maxFrame gs actions).length ≤ maxFrame + 2 := by
  simp [capped_generate_frames]
  omega

/-- Witness for `capped_frame_bound` at the deployed cap of 250. -/
theorem capped_frame_bound_witness :
    0 < 250
      ∧ (capped_generate_frames 250 (GameState.make [[1]]) [⟨0, 0, true⟩]).length ≤ 252 :=
  ⟨by decide, capped_frame_bound 250 (GameState.make [[1]]) [⟨0, 0, true⟩] (by decide)⟩

/-- Claim C5: when no live enemy is at `(w, d)`, `hit_target` is a total
silent no-op: the whole game state is returned unchanged. -/
theorem hit_target_noop_when_no_live_enemy (gs : GameState) (w d : Nat)
    (h : gs.get_enemy_at w d = none) : gs.hit_target w d = gs :=
  hit_target_of_get_none gs w d h

/-- Witness for `hit_target_noop_when_no_live_enemy`: an all-empty one-cell
grid has no enemy at `(0, 0)`. -/
theorem hit_target_noop_witness :
    (GameState.make [[0]]).get_enemy_at 0 0 = none
      ∧ (GameState.make [[0]]).hit_target 0 0 = GameState.make [[0]] :=
  ⟨by decide, hit_target_noop_when_no_live_enemy (GameState.make [[0]]) 0 0 (by decide)⟩

/-- Claim C7: an alive enemy is rendered as one square filled with the
color looked up at its current `health` (not `max_health`); the lookup has
no key above 4, and any alive enemy with health above 4 renders with the
level-1 color `(0, 109, 50)` (clamp-down, not an error). -/
theorem enemy_color_keyed_on_health (e : Enemy) (h : e.is_alive = true) :
    e.drawOps =
      [DrawOp.rect (get_cell_position e.week e.day).1 (get_cell_position e.week e.day).2
        ((get_cell_position e.week e.day).1 + CELL_SIZE)
        ((get_cell_position e.week e.day).2 + CELL_SIZE) (enemyColor e.health)]
    ∧ (∀ k : Int, 4 < k → COLOR_ENEMY_lookup k = none)
    ∧ COLOR_ENEMY_lookup 1 = some (0, 109, 50)
    ∧ (4 < e.health → enemyColor e.health = (0, 109, 50)) := by
  refine ⟨by simp [Enemy.drawOps, h], ?_, rfl, ?_⟩
  · intro k hk
    simp only [COLOR_ENEMY_lookup]
    rw [if_neg (by omega), if_neg (by omega), if_neg (by omega), if_neg (by omega)]
  · intro hh
    simp only [enemyColor, COLOR_ENEMY_lookup]
    rw [if_neg (by omega), if_neg (by omega), if_neg (by omega), if_neg (by omega)]
    rfl

/-- Witness for `enemy_color_keyed_on_health`: an alive enemy with current
health 7 (above every key, and different from its `max_health` 4) renders
with the level-1 color. -/
theorem enemy_color_witness :
    Enemy.is_alive ⟨0, 0, 7, 4⟩ = true ∧ enemyColor (7 : Int) = (0, 109, 50) :=
  ⟨by decide, (enemy_color_keyed_on_health ⟨0, 0, 7, 4⟩ (by decide)).2.2.2 (by decide)⟩

/-- Claim C10: `Enemy.take_damage` unconditionally decrements health by 1
with no lower clamp and reports destruction exactly when the resulting
health is at most 0; on an enemy whose health is already 0 it drives the
health to -1. -/
theorem take_damage_unclamped :
    (∀ e : Enemy,
      (e.take_damage).2.health = e.health - 1
        ∧ ((e.take_damage).1 = true ↔ (e.take_damage).2.health ≤ 0)
        ∧ (e.take_damage).2.week = e.week
        ∧ (e.take_damage).2.day = e.day
        ∧ (e.take_damage).2.max_health = e.max_health)
    ∧ (∀ w d m : Nat, (Enemy.take_damage ⟨w, d, 0, (m : Int)⟩).2.health = -1) := by
  constructor
  · intro e
    refine ⟨rfl, ?_, rfl, rfl, rfl⟩
    simp [Enemy.take_damage]
  · intro w d m
    rfl

/-- Counterexample for claim C3: the selector `"spiral"` is not a key of
`STRATEGY_MAP`, and the `/api/generate` endpoint fails with HTTP 400
instead of falling back to the random strategy. -/
theorem unknown_selector_rejected_by_endpoint :
    STRATEGY_MAP_lookup "spiral" = none
      ∧ generate_endpoint_strategy "spiral" = Except.error 400 := by
  constructor <;> rfl

/-- Claim C3 (amended): for every selector string outside
`{column, row, random}`, `generate_gif`'s own lookup silently falls back to
the random strategy, but the `/api/generate` endpoint validates the
selector first and rejects the request with HTTP 400, so through the HTTP
API an unknown selector fails rather than being mapped to random. -/
theorem unknown_selector_fallback_and_rejection (s : String)
    (h : STRATEGY_MAP_lookup s = none) :
    generate_gif_strategy s = StrategyKind.random
      ∧ generate_endpoint_strategy s = Except.error 400 := by
  constructor
  · simp [generate_gif_strategy, h]
  · simp [generate_endpoint_strategy, h]

/-- Witness for `unknown_selector_fallback_and_rejection` at the selector
`"spiral"`. -/
theorem unknown_selector_witness :
    generate_gif_strategy "spiral" = StrategyKind.random
      ∧ generate_endpoint_strategy "spiral" = Except.error 400 :=
  unknown_selector_fallback_and_rejection "spiral" (by decide)

theorem drawListS_of_readonly {α : Type} {f : α → List DrawOp × α} {g : α → List DrawOp}
    (hf : ∀ x, f x = (g x, x)) : ∀ l : List α, drawListS f l = (l.flatMap g, l)
  | [] => rfl
  | x :: xs => by
    simp only [drawListS, drawListS_of_readonly hf xs, hf x, List.flatMap_cons]

/-- Claim C9: rendering is pure and idempotent: threading the game state
through every draw call returns it unchanged, a second render of the
returned state yields an identical raster, and the threaded renderer
agrees with the pure `render_frame`. -/
theorem render_frame_pure (gs : GameState) :
    (renderFrameS gs).2 = gs
      ∧ (renderFrameS ((renderFrameS gs).2)).1 = (renderFrameS gs).1
      ∧ (renderFrameS gs).1 = render_frame gs := by
  have hstate : (renderFrameS gs).2 = gs := by
    simp only [renderFrameS, GameState.drawS,
      drawListS_of_readonly (fun b => rfl : ∀ b : Bullet, Bullet.drawS b = (b.drawOps, b)),
      Ship.drawS]
  refine ⟨hstate, by rw [hstate], ?_⟩
  simp only [renderFrameS, GameState.drawS, render_frame, GameState.drawOps,
    drawListS_of_readonly (fun e => rfl : ∀ e : Enemy, Enemy.drawS e = (e.drawOps, e)),
    drawListS_of_readonly (fun b => rfl : ∀ b : Bullet, Bullet.drawS b = (b.drawOps, b)),
    Ship.drawS]

theorem flatMap_eq_map_of_singleton {α β : Type} {f : α → List β} {g : α → β} :
    ∀ {l : List α}, (∀ x ∈ l, f x = [g x]) → l.flatMap f = l.map g
  | [], _ => rfl
  | x :: xs, h => by
    rw [List.flatMap_cons, List.map_cons, h x (List.mem_cons_self x xs),
      flatMap_eq_map_of_singleton fun y hy => h y (List.mem_cons_of_mem x hy)]
    rfl

/-- Claim C6: `render_frame` issues, in order: the full-canvas background
fill, one empty-colored square per grid cell (all `NUM_WEEKS * NUM_DAYS`
of them), one health-colored square per alive enemy, the bullet circles,
and finally the single ship triangle; the ship triangle is issued even for
the off-grid sentinel column `-1`, where its x-position `padding - 20`
lies left of the playing field. -/
theorem draw_order_spec (gs : GameState) :
    (render_frame gs).ops =
      DrawOp.fill COLOR_BACKGROUND ::
        (gridOps
          ++ gs.get_alive_enemies.map (fun e =>
              DrawOp.rect (get_cell_position e.week e.day).1 (get_cell_position e.week e.day).2
                ((get_cell_position e.week e.day).1 + CELL_SIZE)
                ((get_cell_position e.week e.day).2 + CELL_SIZE) (enemyColor e.health))
          ++ gs.bullets.flatMap Bullet.drawOps
          ++ [DrawOp.polygon
                [(shipX gs.ship + CELL_SIZE / 2, SHIP_Y), (shipX gs.ship, SHIP_Y + CELL_SIZE),
                 (shipX gs.ship + CELL_SIZE, SHIP_Y + CELL_SIZE)] COLOR_SHIP])
      ∧ gridOps.length = NUM_WEEKS * NUM_DAYS
      ∧ gridOps.all (fun op => op.color == COLOR_EMPTY) = true
      ∧ shipX { week := -1 } = padding - 20
      ∧ padding - 20 < padding := by
  refine ⟨?_, by decide, by decide, by rfl, by decide⟩
  have halive : ∀ e ∈ gs.get_alive_enemies,
      Enemy.drawOps e =
        [DrawOp.rect (get_cell_position e.week e.day).1 (get_cell_position e.week e.day).2
          ((get_cell_position e.week e.day).1 + CELL_SIZE)
          ((get_cell_position e.week e.day).2 + CELL_SIZE) (enemyColor e.health)] := by
    intro e he
    have : e.is_alive = true := (List.mem_filter.mp he).2
    simp [Enemy.drawOps, this]
  rw [render_frame, GameState.drawOps, flatMap_eq_map_of_singleton halive]
  rfl

/-! ### The shot episode -/

theorem setLastProgress_setLastProgress (p q : Rat) :
    ∀ l : List Bullet, setLastProgress p (setLastProgress q l) = setLastProgress p l
  | [] => rfl
  | [b] => rfl
  | b :: b2 :: rest => by
    rw [show setLastProgress q (b :: b2 :: rest) = b :: setLastProgress q (b2 :: rest) from rfl,
      show setLastProgress p (b :: b2 :: rest) = b :: setLastProgress p (b2 :: rest) from rfl]
    obtain ⟨y, ys, hshape⟩ : ∃ y ys, setLastProgress q (b2 :: rest) = y :: ys := by
      cases rest with
      | nil => exact ⟨_, _, rfl⟩
      | cons c cs => exact ⟨_, _, rfl⟩
    rw [hshape, show setLastProgress p (b :: y :: ys) = b :: setLastProgress p (y :: ys) from rfl,
      ← hshape, setLastProgress_setLastProgress p q (b2 :: rest)]

theorem flightState_flightState (gs : GameState) (s t : Nat) :
    flightState (flightState gs s) t = flightState gs t := by
  simp only [flightState, setLastProgress_setLastProgress]

theorem flightFrames_snd : ∀ (l : List Nat) (gs : GameState),
    (flightFrames gs l).2 = l.map fun s => render_frame (flightState gs s)
  | [], _ => rfl
  | s :: rest, gs => by
    simp only [flightFrames, List.map_cons, flightFrames_snd rest]
    congr 1
    exact List.map_congr_left fun t _ => by rw [flightState_flightState]

theorem flightFrames_fst : ∀ (l : List Nat) (gs : GameState),
    (flightFrames gs l).1 = l.foldl flightState gs
  | [], _ => rfl
  | s :: rest, gs => by
    simp only [flightFrames, List.foldl_cons, flightFrames_fst rest]

theorem flightFrames_range_fst (gs : GameState) :
    (flightFrames gs (List.range bullet_flight_steps)).1 = flightState gs 4 := by
  rw [flightFrames_fst]
  show List.foldl flightState gs [0, 1, 2, 3, 4] = flightState gs 4
  simp only [List.foldl_cons, List.foldl_nil, flightState_flightState]

/-- Claim C8: one shot episode, for any game state and target: `shoot`
creates exactly one bullet with progress 0 and applies no damage; the
episode renders exactly one frame per flight step, showing progress
`(i + 1) / 5` at step `i`, strictly increasing up to `1`; the enemies are
untouched in every rendered flight state and the hit is resolved only
after the last flight frame, after which the bullet collection is emptied;
and when no bullet is pending, the episode's single bullet is the only one
live during the flight. -/
theorem shot_episode_spec (gs : GameState) (w d : Nat) :
    (({ gs with ship := gs.ship.move_to (w : Int) }).shoot w d).1 =
        { week := w, target_day := d, progress := 0 }
      ∧ (shotState gs w d).bullets = gs.bullets ++ [{ week := w, target_day := d, progress := 0 }]
      ∧ (shotState gs w d).enemies = gs.enemies
      ∧ (processAction gs ⟨w, d, true⟩).2 =
          ((List.range 5).map fun i => render_frame (flightState (shotState gs w d) i))
      ∧ (processAction gs ⟨w, d, true⟩).2.length = 5
      ∧ (∀ i j : Nat, i < j →
          ((i : Rat) + 1) / (bullet_flight_steps : Rat)
            < ((j : Rat) + 1) / (bullet_flight_steps : Rat))
      ∧ ((4 : Rat) + 1) / (bullet_flight_steps : Rat) = 1
      ∧ (∀ i : Nat, (flightState (shotState gs w d) i).enemies = gs.enemies)
      ∧ (processAction gs ⟨w, d, true⟩).1 =
          ((flightState (shotState gs w d) 4).hit_target w d).clear_bullets
      ∧ (processAction gs ⟨w, d, true⟩).1.bullets = []
      ∧ (gs.bullets = [] → ∀ i : Nat,
          (flightState (shotState gs w d) i).bullets =
            [{ week := w, target_day := d,
               progress := ((i : Rat) + 1) / (bullet_flight_steps : Rat) }]) := by
  refine ⟨rfl, rfl, rfl, ?_, ?_, ?_, by norm_num [bullet_flight_steps], fun i => rfl,
    ?_, rfl, ?_⟩
  · show (flightFrames (shotState gs w d) (List.range bullet_flight_steps)).2 = _
    rw [flightFrames_snd]
    rfl
  · show ((flightFrames (shotState gs w d) (List.range bullet_flight_steps)).2).length = 5
    rw [flightFrames_length]
    rfl
  · intro i j hij
    have h5 : (0 : Rat) < (bullet_flight_steps : Rat) := by norm_num [bullet_flight_steps]
    have hij2 : ((i : Rat) + 1) < ((j : Rat) + 1) := by
      have : (i : Rat) < (j : Rat) := by exact_mod_cast hij
      linarith
    exact div_lt_div_of_pos_right hij2 h5
  · show ((flightFrames (shotState gs w d) (List.range bullet_flight_steps)).1.hit_target
        w d).clear_bullets = _
    rw [flightFrames_range_fst]
  · intro hb i
    simp [shotState, GameState.shoot, flightState, hb, setLastProgress]

/-- Witness for `shot_episode_spec` on a one-enemy grid: progress is
strictly increasing between steps 1 and 2, and at flight step 2 the single
live bullet carries progress `3/5`. -/
theorem shot_episode_witness :
    ((1 : Rat) + 1) / (bullet_flight_steps : Rat) < ((2 : Rat) + 1) / (bullet_flight_steps : Rat)
      ∧ (flightState (shotState (GameState.make [[1]]) 0 0) 2).bullets =
          [{ week := 0, target_day := 0,
             progress := ((2 : Rat) + 1) / (bullet_flight_steps : Rat) }] := by
  have h := shot_episode_spec (GameState.make [[1]]) 0 0
  exact ⟨by
    have := h.2.2.2.2.2.1 1 2 (by decide)
    exact_mod_cast this,
    h.2.2.2.2.2.2.2.2.2.2 (by decide) 2⟩

/-! ### Damage monotonicity over reachable states -/

/-- Claim C4: over every state reachable from an initialized grid by any
sequence of interface calls: when `get_enemy_at` finds a live enemy `e` at
`(w, d)`, `hit_target` leaves exactly `e` with one less health point
observable there — still found with health `e.health - 1` while that is
positive, and no longer found once it reaches 0, at which point the enemy
is non-alive; when no live enemy is found, `hit_target` is the identity,
so every hit after the enemy's death is a no-op; enemy positions are
untouched by `hit_target`; and no reachable enemy ever has negative
health. -/
theorem hit_target_damage_spec (g : Grid) (ops : List GOp) (w d : Nat) :
    (∀ e : Enemy, (reached g ops).get_enemy_at w d = some e →
        0 < e.health
          ∧ ((reached g ops).hit_target w d).get_enemy_at w d =
              (if 0 < e.health - 1 then some { e with health := e.health - 1 } else none)
          ∧ (Enemy.is_alive { e with health := e.health - 1 } = false ↔ e.health - 1 = 0))
      ∧ ((reached g ops).get_enemy_at w d = none →
          (reached g ops).hit_target w d = reached g ops)
      ∧ (((reached g ops).hit_target w d).enemies.map enemyPos =
          (reached g ops).enemies.map enemyPos)
      ∧ (∀ e ∈ (reached g ops).enemies, 0 ≤ e.health) := by
  have hinv : EnemyInv (reached g ops) := inv_runOps (GameState.make g) ops (inv_make g)
  refine ⟨?_, hit_target_of_get_none (reached g ops) w d,
    map_pos_damageFirstAt w d (reached g ops).enemies, hinv.2⟩
  intro e he
  have hpred : enemyAtPred w d e = true := List.find?_some he
  have hh := (enemyAtPred_iff.mp hpred).2.2
  refine ⟨hh, find?_damageFirstAt hinv.1 he, ?_⟩
  simp only [Enemy.is_alive, decide_eq_false_iff_not, not_lt]
  omega

/-- Witness for `hit_target_damage_spec`: on a one-cell grid of level 2,
the enemy is found with health 2, is still found with health 1 after one
hit, and on an empty grid a hit is the identity. -/
theorem hit_target_damage_witness :
    (reached [[2]] []).get_enemy_at 0 0 = some ⟨0, 0, 2, 2⟩
      ∧ ((reached [[2]] []).hit_target 0 0).get_enemy_at 0 0 = some ⟨0, 0, 1, 2⟩
      ∧ (reached [[0]] []).hit_target 0 0 = reached [[0]] [] := by
  refine ⟨by decide, ?_, (hit_target_damage_spec [[0]] [] 0 0).2.1 (by decide)⟩
  have h := ((hit_target_damage_spec [[2]] [] 0 0).1 ⟨0, 0, 2, 2⟩ (by decide)).2.1
  rw [h, if_pos (by norm_num)]
  norm_num

end SpaceShooter
